import Mathlib

/-!
Verification development for the ARO Bazzar CMS backend (src/server.js).

The repository ships near-duplicate Express server variants.  Two are under
src/server.js: a Sequelize/PostgreSQL variant (namespace `sql` below) and a
Mongoose/MongoDB variant (namespace `mongo` below).  Each variant binds the
store entities (users, products, categories, orders) to HTTP verbs.

The embedding models:
- JSON values as an inductive `Json` (JS numbers are modelled as `Int`:
  the server performs no arithmetic on any numeric field, it only stores and
  echoes them, so fractional values are irrelevant to every property proved);
- an HTTP response as status code plus `Json` body;
- the bcryptjs primitive (`genSalt(10)` / `hash` / `compare`) as an executable
  stand-in that records the version tag, cost factor and salt in the digest
  and scrambles the salted plaintext, exactly the observable structure the
  server relies on (salted, cost-carrying, recomputable by `compare`);
- each route handler as a pure function from its collection state and the
  parsed request to a result carrying the response, the new state, and the
  number of store operations performed (0 when the handler answered before
  touching the store).

Randomness (salt generation), server-assigned identities and clock reads are
passed to the handlers as explicit parameters.
-/

/-- JSON values as delivered by `express.json()` and produced by `res.json`.
JS numbers are modelled as `Int` (see module comment). -/
inductive Json where
  | null : Json
  | bool : Bool → Json
  | num : Int → Json
  | str : String → Json
  | arr : List Json → Json
  | obj : List (String × Json) → Json
deriving Repr

/-- An HTTP response: status code and JSON body.  `res.send` of a plain text
banner is modelled as a `Json.str` body. -/
structure HttpResponse where
  status : Nat
  body : Json
deriving Repr

/-- The result of running one route handler: the response sent, the state of
the handler's collection afterwards, and how many store operations (create,
find, update, delete calls on the driver) the handler performed. -/
structure HResult (σ : Type) where
  resp : HttpResponse
  store : σ
  storeOps : Nat
deriving Repr

/-- The shape `res.json` gives a message object, the ubiquitous response shape of server.js. -/
def msgObj (m : String) : Json :=
  Json.obj [("message", Json.str m)]

/-- Key list of a JSON object (used to state projection properties). -/
def Json.objKeys : Json → List String
  | Json.obj kvs => kvs.map Prod.fst
  | _ => []

/-- Element list of a JSON array (used to state list-response properties). -/
def Json.arrElems : Json → List Json
  | Json.arr l => l
  | _ => []

/-- Field lookup in a parsed JSON body (JS object keys are unique, so
first-match association lookup is the JS semantics). -/
def bodyStr (body : List (String × Json)) (k : String) : Option String :=
  match body.lookup k with
  | some (Json.str s) => some s
  | _ => none

def bodyNum (body : List (String × Json)) (k : String) : Option Int :=
  match body.lookup k with
  | some (Json.num n) => some n
  | _ => none

/-- The emptiness test `!req.body || Object.keys(req.body).length === 0`
performed by every POST/PUT handler of the mongo variant. -/
def reqBodyEmpty : Option (List (String × Json)) → Bool
  | none => true
  | some l => l.isEmpty

/-- Mongoose / Sequelize projection by exclusion: `.select('-password')` resp.
`attributes: exclude`.  Drops the named keys from a serialized record. -/
def selectExclude (keys : List String) (fields : List (String × Json)) :
    List (String × Json) :=
  fields.filter (fun kv => !(keys.contains kv.1))

namespace bcrypt

/-- Model of the digest scramble: a fixed executable permutation of the
code points of the salted plaintext.  Flipping the low bit of a valid code
point never produces a surrogate or an out-of-range value, so the map stays
inside `Char`. -/
def scrambleChars : List Char → List Char
  | [] => []
  | c :: cs => Char.ofNat (c.toNat ^^^ 1) :: scrambleChars cs

/-- Model of `bcrypt.hash(plaintext, salt)` for a salt generated with cost
factor `cost`: the digest records the version tag, the cost and the salt,
followed by a scramble of the salted plaintext — the structure bcryptjs
digests expose and that `compare` recomputes from. -/
def hashWithSalt (cost : Nat) (salt plaintext : String) : String :=
  "$2a$" ++ toString cost ++ "$" ++ salt ++ "$" ++
    String.mk (scrambleChars (salt.data ++ plaintext.data))

/-- Split a character list at every occurrence of `sep` (the digest's field
separator). -/
def splitOnChar (sep : Char) : List Char → List (List Char)
  | [] => [[]]
  | c :: cs =>
    let r := splitOnChar sep cs
    if c == sep then [] :: r
    else
      match r with
      | [] => [[c]]
      | h :: t => (c :: h) :: t

/-- Read a decimal cost field. -/
def digitsToNat : List Char → Nat → Nat
  | [], acc => acc
  | c :: cs, acc => digitsToNat cs (acc * 10 + (c.toNat - 48))

/-- Model of `bcrypt.compare(plaintext, digest)`: re-read the cost and the
salt from the digest and recompute, comparing with the primitive's own
equality. -/
def compare (plaintext digest : String) : Bool :=
  let parts := splitOnChar '$' digest.data
  let cost := digitsToNat (parts.getD 2 []) 0
  let salt := String.mk (parts.getD 3 [])
  hashWithSalt cost salt plaintext == digest

end bcrypt

/-- Turn an optional parsed field into the mapper's required-field check. -/
def requireField {α : Type} (o : Option α) (msg : String) : Except String α :=
  match o with
  | some a => Except.ok a
  | none => Except.error msg

/-- Parse a JSON array of strings (the images field). -/
def parseStrList : Json → Option (List String)
  | Json.arr l =>
      l.foldr (fun j acc =>
        match j, acc with
        | Json.str s, some xs => some (s :: xs)
        | _, _ => none) (some [])
  | _ => none

namespace mongo

/-! ## The Mongoose/MongoDB variant (second document of src/server.js)

Stored documents.  `_id` is the server-assigned identity (MongoDB ObjectIds
are modelled as `Nat`); the mongoose version key `__v` carries no information
relevant to any property and is omitted from the model. -/

structure MUser where
  _id : Nat
  name : String
  email : String
  password : String
  role : String
deriving Repr, DecidableEq

structure MProduct where
  _id : Nat
  name : String
  description : Option String
  price : Int
  category : String
  stock : Int
  status : String
  images : List String
  createdAt : Int
deriving Repr, DecidableEq

structure MCategory where
  _id : Nat
  name : String
deriving Repr, DecidableEq

structure MOrderItem where
  productName : Option String
  quantity : Option Int
  price : Option Int
deriving Repr, DecidableEq

structure MOrder where
  _id : Nat
  customer : String
  items : List MOrderItem
  total : Int
  status : String
  orderDate : Int
deriving Repr, DecidableEq

/-! ### Users -/

/-- A user document before the pre-save hook has run. -/
structure UserDoc where
  name : String
  email : String
  password : String
  role : String
deriving Repr, DecidableEq

/-- Model of `new User(req.body)` plus mongoose validation of UserSchema: name, email
and password are required; role defaults to "Editor" and must lie in the
enum.  Unknown body keys are ignored (mongoose only reads schema paths);
non-string values for string paths would be cast by mongoose, a behavior no
claim depends on, so the model reads string-valued fields. -/
def buildUser (body : List (String × Json)) : Except String UserDoc := do
  let name ← requireField (bodyStr body "name")
    "User validation failed: name is required"
  let email ← requireField (bodyStr body "email")
    "User validation failed: email is required"
  let password ← requireField (bodyStr body "password")
    "User validation failed: password is required"
  let role := (bodyStr body "role").getD "Editor"
  if role == "Admin" || role == "Editor" then
    Except.ok ⟨name, email, password, role⟩
  else
    Except.error "User validation failed: role is not a valid enum value"

/-- The UserSchema.pre save hook: a new document always has a modified
password, so it is rehashed with a salt generated at cost factor 10. -/
def hashUserDoc (salt : String) (d : UserDoc) : UserDoc :=
  { d with password := bcrypt.hashWithSalt 10 salt d.password }

/-- Model of `item.save()` for a new user: validation, pre-save hook, then the insert
against the unique index on email. -/
def saveNewUser (salt : String) (newId : Nat) (store : List MUser)
    (body : List (String × Json)) : Except String (MUser × List MUser) := do
  let d ← buildUser body
  let d := hashUserDoc salt d
  if store.any (fun u => u.email == d.email) then
    Except.error "E11000 duplicate key error collection: users index: email"
  else
    let u : MUser := ⟨newId, d.name, d.email, d.password, d.role⟩
    Except.ok (u, store ++ [u])

/-- POST /api/users (mongo variant, src/server.js:269). -/
def postUsers (salt : String) (newId : Nat) (store : List MUser)
    (body : Option (List (String × Json))) : HResult (List MUser) :=
  if reqBodyEmpty body then
    ⟨⟨400, msgObj "Payload not set or empty."⟩, store, 0⟩
  else
    match saveNewUser salt newId store (body.getD []) with
    | Except.error e => ⟨⟨400, msgObj e⟩, store, 1⟩
    | Except.ok (u, store') =>
        ⟨⟨201, Json.obj [("_id", Json.num u._id), ("name", Json.str u.name),
          ("email", Json.str u.email), ("role", Json.str u.role)]⟩, store', 1⟩

/-- Full serialization of a stored user document (what `res.json` would emit
without a projection). -/
def serializeUser (u : MUser) : List (String × Json) :=
  [("_id", Json.num u._id), ("name", Json.str u.name),
   ("email", Json.str u.email), ("password", Json.str u.password),
   ("role", Json.str u.role)]

/-- GET /api/users (mongo variant, src/server.js:268):
`User.find().select('-password')`. -/
def getUsers (store : List MUser) : HResult (List MUser) :=
  ⟨⟨200, Json.arr (store.map (fun u =>
      Json.obj (selectExclude ["password"] (serializeUser u))))⟩, store, 1⟩

/-- The update document `{ name, email, role }` built by PUT /api/users/:id:
only these three paths can appear; a field absent from the body is
`undefined` and mongoose strips it from the update, keeping the stored
value. -/
def applyUserUpdate (body : List (String × Json)) (u : MUser) : MUser :=
  { u with
    name := (bodyStr body "name").getD u.name,
    email := (bodyStr body "email").getD u.email,
    role := (bodyStr body "role").getD u.role }

/-- PUT /api/users/:id (mongo variant, src/server.js:270):
`findByIdAndUpdate(id, { name, email, role }, { new: true })
.select('-password')`; a miss yields `null`, serialized as-is. -/
def putUsers (store : List MUser) (id : Nat)
    (body : Option (List (String × Json))) : HResult (List MUser) :=
  if reqBodyEmpty body then
    ⟨⟨400, msgObj "Payload not set or empty."⟩, store, 0⟩
  else
    let b := body.getD []
    match store.find? (fun u => u._id == id) with
    | none => ⟨⟨200, Json.null⟩, store, 1⟩
    | some u =>
        ⟨⟨200, Json.obj (selectExclude ["password"]
            (serializeUser (applyUserUpdate b u)))⟩,
         store.map (fun v => if v._id == id then applyUserUpdate b v else v), 1⟩

/-- DELETE /api/users/:id (mongo variant, src/server.js:271):
`findByIdAndDelete` then an unconditional success message. -/
def deleteUsers (store : List MUser) (id : Nat) : HResult (List MUser) :=
  ⟨⟨200, msgObj "Deleted successfully."⟩,
   store.filter (fun u => u._id != id), 1⟩

/-- POST /api/login (mongo variant, src/server.js:273-286).  The parsed
email and password fields of the request body are the inputs. -/
def postLogin (store : List MUser) (email password : String) : HttpResponse :=
  match store.find? (fun u => u.email == email) with
  | none => ⟨400, msgObj "Invalid credentials"⟩
  | some user =>
      if bcrypt.compare password user.password then
        ⟨200, Json.obj [("message", Json.str "Login successful"),
          ("user", Json.obj [("_id", Json.num user._id),
            ("name", Json.str user.name), ("email", Json.str user.email),
            ("role", Json.str user.role)])]⟩
      else ⟨400, msgObj "Invalid credentials"⟩

end mongo

namespace mongo

/-! ### Products -/

/-- Model of `new Product(req.body)` plus mongoose validation of ProductSchema:
name, price and category are required; stock is required with default 0
(the default fills an omitted value before the required check, so an
omitted stock is valid and 0); status defaults to "Active" and must lie in
the enum; images defaults to the empty list; createdAt defaults to the
current clock (`Date.now`), passed in as `now`. -/
def buildProduct (newId : Nat) (now : Int) (body : List (String × Json)) :
    Except String MProduct := do
  let name ← requireField (bodyStr body "name")
    "Product validation failed: name is required"
  let description := bodyStr body "description"
  let price ← requireField (bodyNum body "price")
    "Product validation failed: price is required"
  let category ← requireField (bodyStr body "category")
    "Product validation failed: category is required"
  let stock := (bodyNum body "stock").getD 0
  let status := (bodyStr body "status").getD "Active"
  if status == "Active" || status == "Archived" || status == "Out of Stock" then
    let images := match body.lookup "images" with
      | some j => (parseStrList j).getD []
      | none => []
    let createdAt := (bodyNum body "createdAt").getD now
    Except.ok ⟨newId, name, description, price, category, stock, status,
      images, createdAt⟩
  else
    Except.error "Product validation failed: status is not a valid enum value"

/-- POST /api/products (mongo variant, src/server.js:252). -/
def postProducts (newId : Nat) (now : Int) (store : List MProduct)
    (body : Option (List (String × Json))) : HResult (List MProduct) :=
  if reqBodyEmpty body then
    ⟨⟨400, msgObj "Payload not set or empty."⟩, store, 0⟩
  else
    match buildProduct newId now (body.getD []) with
    | Except.error e => ⟨⟨400, msgObj e⟩, store, 1⟩
    | Except.ok p => ⟨⟨201, Json.obj (serializeProduct p)⟩, store ++ [p], 1⟩
where
  serializeProduct (p : MProduct) : List (String × Json) :=
    [("_id", Json.num p._id), ("name", Json.str p.name)]
    ++ (match p.description with
        | some d => [("description", Json.str d)]
        | none => [])
    ++ [("price", Json.num p.price), ("category", Json.str p.category),
        ("stock", Json.num p.stock), ("status", Json.str p.status),
        ("images", Json.arr (p.images.map Json.str)),
        ("createdAt", Json.num p.createdAt)]

/-- GET /api/products (mongo variant, src/server.js:251). -/
def getProducts (store : List MProduct) : HResult (List MProduct) :=
  ⟨⟨200, Json.arr (store.map (fun p =>
      Json.obj (postProducts.serializeProduct p)))⟩, store, 1⟩

/-- The update semantics of `findByIdAndUpdate(id, req.body)`: each schema path
present in the body replaces the stored value; `runValidators` is off by
default, so no enum check is applied on update. -/
def applyProductUpdate (body : List (String × Json)) (p : MProduct) :
    MProduct :=
  { p with
    name := (bodyStr body "name").getD p.name,
    description := match bodyStr body "description" with
      | some d => some d
      | none => p.description,
    price := (bodyNum body "price").getD p.price,
    category := (bodyStr body "category").getD p.category,
    stock := (bodyNum body "stock").getD p.stock,
    status := (bodyStr body "status").getD p.status,
    images := match body.lookup "images" with
      | some j => (parseStrList j).getD p.images
      | none => p.images,
    createdAt := (bodyNum body "createdAt").getD p.createdAt }

/-- PUT /api/products/:id (mongo variant, src/server.js:253). -/
def putProducts (store : List MProduct) (id : Nat)
    (body : Option (List (String × Json))) : HResult (List MProduct) :=
  if reqBodyEmpty body then
    ⟨⟨400, msgObj "Payload not set or empty."⟩, store, 0⟩
  else
    let b := body.getD []
    match store.find? (fun p => p._id == id) with
    | none => ⟨⟨200, Json.null⟩, store, 1⟩
    | some p =>
        ⟨⟨200, Json.obj (postProducts.serializeProduct
            (applyProductUpdate b p))⟩,
         store.map (fun q => if q._id == id then applyProductUpdate b q else q),
         1⟩

/-- DELETE /api/products/:id (mongo variant, src/server.js:254). -/
def deleteProducts (store : List MProduct) (id : Nat) :
    HResult (List MProduct) :=
  ⟨⟨200, msgObj "Deleted successfully."⟩,
   store.filter (fun p => p._id != id), 1⟩

/-! ### Categories -/

/-- Model of `new Category(req.body)` + save: name is required and unique (the
MongoDB unique index rejects a duplicate at insert, leaving the collection
untouched). -/
def saveNewCategory (newId : Nat) (store : List MCategory)
    (body : List (String × Json)) :
    Except String (MCategory × List MCategory) := do
  let name ← requireField (bodyStr body "name")
    "Category validation failed: name is required"
  if store.any (fun c => c.name == name) then
    Except.error "E11000 duplicate key error collection: categories index: name"
  else
    let c : MCategory := ⟨newId, name⟩
    Except.ok (c, store ++ [c])

def serializeCategory (c : MCategory) : List (String × Json) :=
  [("_id", Json.num c._id), ("name", Json.str c.name)]

/-- POST /api/categories (mongo variant, src/server.js:258). -/
def postCategories (newId : Nat) (store : List MCategory)
    (body : Option (List (String × Json))) : HResult (List MCategory) :=
  if reqBodyEmpty body then
    ⟨⟨400, msgObj "Payload not set or empty."⟩, store, 0⟩
  else
    match saveNewCategory newId store (body.getD []) with
    | Except.error e => ⟨⟨400, msgObj e⟩, store, 1⟩
    | Except.ok (c, store') =>
        ⟨⟨201, Json.obj (serializeCategory c)⟩, store', 1⟩

/-- GET /api/categories (mongo variant, src/server.js:257). -/
def getCategories (store : List MCategory) : HResult (List MCategory) :=
  ⟨⟨200, Json.arr (store.map (fun c => Json.obj (serializeCategory c)))⟩,
   store, 1⟩

def applyCategoryUpdate (body : List (String × Json)) (c : MCategory) :
    MCategory :=
  { c with name := (bodyStr body "name").getD c.name }

/-- PUT /api/categories/:id (mongo variant, src/server.js:259). -/
def putCategories (store : List MCategory) (id : Nat)
    (body : Option (List (String × Json))) : HResult (List MCategory) :=
  if reqBodyEmpty body then
    ⟨⟨400, msgObj "Payload not set or empty."⟩, store, 0⟩
  else
    let b := body.getD []
    match store.find? (fun c => c._id == id) with
    | none => ⟨⟨200, Json.null⟩, store, 1⟩
    | some c =>
        ⟨⟨200, Json.obj (serializeCategory (applyCategoryUpdate b c))⟩,
         store.map (fun d => if d._id == id then applyCategoryUpdate b d else d),
         1⟩

/-- DELETE /api/categories/:id (mongo variant, src/server.js:260). -/
def deleteCategories (store : List MCategory) (id : Nat) :
    HResult (List MCategory) :=
  ⟨⟨200, msgObj "Deleted successfully."⟩,
   store.filter (fun c => c._id != id), 1⟩

/-! ### Orders -/

/-- One entry of the items array; a malformed (non-object) entry would be
rejected by mongoose casting, a path no claim exercises. -/
def parseOrderItem : Json → MOrderItem
  | Json.obj kvs => ⟨bodyStr kvs "productName", bodyNum kvs "quantity",
      bodyNum kvs "price"⟩
  | _ => ⟨none, none, none⟩

def parseOrderItems : Json → List MOrderItem
  | Json.arr l => l.map parseOrderItem
  | _ => []

/-- Model of `new Order(req.body)` plus mongoose validation of OrderSchema. -/
def buildOrder (newId : Nat) (now : Int) (body : List (String × Json)) :
    Except String MOrder := do
  let customer ← requireField (bodyStr body "customer")
    "Order validation failed: customer is required"
  let total ← requireField (bodyNum body "total")
    "Order validation failed: total is required"
  let items := match body.lookup "items" with
    | some j => parseOrderItems j
    | none => []
  let status := (bodyStr body "status").getD "Processing"
  if status == "Processing" || status == "Shipped" || status == "Delivered"
      || status == "Cancelled" then
    let orderDate := (bodyNum body "orderDate").getD now
    Except.ok ⟨newId, customer, items, total, status, orderDate⟩
  else
    Except.error "Order validation failed: status is not a valid enum value"

def serializeOrder (o : MOrder) : List (String × Json) :=
  [("_id", Json.num o._id), ("customer", Json.str o.customer),
   ("items", Json.arr (o.items.map (fun it => Json.obj (
      (match it.productName with
       | some s => [("productName", Json.str s)] | none => [])
      ++ (match it.quantity with
          | some q => [("quantity", Json.num q)] | none => [])
      ++ (match it.price with
          | some p => [("price", Json.num p)] | none => []))))),
   ("total", Json.num o.total), ("status", Json.str o.status),
   ("orderDate", Json.num o.orderDate)]

/-- POST /api/orders (mongo variant, src/server.js:264). -/
def postOrders (newId : Nat) (now : Int) (store : List MOrder)
    (body : Option (List (String × Json))) : HResult (List MOrder) :=
  if reqBodyEmpty body then
    ⟨⟨400, msgObj "Payload not set or empty."⟩, store, 0⟩
  else
    match buildOrder newId now (body.getD []) with
    | Except.error e => ⟨⟨400, msgObj e⟩, store, 1⟩
    | Except.ok o => ⟨⟨201, Json.obj (serializeOrder o)⟩, store ++ [o], 1⟩

/-- GET /api/orders (mongo variant, src/server.js:263):
`Order.find().sort(orderDate: -1)`, newest first. -/
def getOrders (store : List MOrder) : HResult (List MOrder) :=
  ⟨⟨200, Json.arr ((store.mergeSort
      (fun a b => decide (b.orderDate ≤ a.orderDate))).map
        (fun o => Json.obj (serializeOrder o)))⟩, store, 1⟩

def applyOrderUpdate (body : List (String × Json)) (o : MOrder) : MOrder :=
  { o with
    customer := (bodyStr body "customer").getD o.customer,
    items := match body.lookup "items" with
      | some j => parseOrderItems j
      | none => o.items,
    total := (bodyNum body "total").getD o.total,
    status := (bodyStr body "status").getD o.status,
    orderDate := (bodyNum body "orderDate").getD o.orderDate }

/-- PUT /api/orders/:id (mongo variant, src/server.js:265). -/
def putOrders (store : List MOrder) (id : Nat)
    (body : Option (List (String × Json))) : HResult (List MOrder) :=
  if reqBodyEmpty body then
    ⟨⟨400, msgObj "Payload not set or empty."⟩, store, 0⟩
  else
    let b := body.getD []
    match store.find? (fun o => o._id == id) with
    | none => ⟨⟨200, Json.null⟩, store, 1⟩
    | some o =>
        ⟨⟨200, Json.obj (serializeOrder (applyOrderUpdate b o))⟩,
         store.map (fun q => if q._id == id then applyOrderUpdate b q else q),
         1⟩

end mongo

namespace sql

/-! ## The Sequelize/PostgreSQL variant (first document of src/server.js)

Rows with server-assigned integer `id`.  The `createdAt`/`updatedAt`
timestamps Sequelize adds and the Product–Category association
(`CategoryId`) play no role in any claim and are omitted from the model.
Only the routes the file defines are modelled: products CRUD, user
list/create, and login (the category and order routes are only a comment in
this variant). -/

structure SUser where
  id : Nat
  name : String
  email : String
  password : String
  role : String
deriving Repr, DecidableEq

structure SProduct where
  id : Nat
  name : String
  description : Option String
  price : Int
  stock : Int
  status : String
  images : Option (List String)
deriving Repr, DecidableEq

/-- Model of the sequelize `isEmail` validator (validator.js, an external
library): presence of an at sign, which is all any claim needs of it. -/
def isEmailModel (s : String) : Bool := s.data.contains '@'

/-- Model of `User.create(req.body)`: build from the schema attributes of the body,
apply the role default, run the validators (allowNull on name, email,
password; isEmail; isIn on role), run the beforeCreate hook (bcrypt hash at
cost 10), then insert against the unique constraint on email. -/
def createUser (salt : String) (newId : Nat) (store : List SUser)
    (body : List (String × Json)) : Except String (SUser × List SUser) := do
  let name ← requireField (bodyStr body "name")
    "notNull Violation: User.name cannot be null"
  let email ← requireField (bodyStr body "email")
    "notNull Violation: User.email cannot be null"
  let password ← requireField (bodyStr body "password")
    "notNull Violation: User.password cannot be null"
  if !(isEmailModel email) then
    Except.error "Validation error: Validation isEmail on email failed"
  else
    let role := (bodyStr body "role").getD "Editor"
    if !(role == "Admin" || role == "Editor") then
      Except.error "Validation error: Validation isIn on role failed"
    else
      let hashed := bcrypt.hashWithSalt 10 salt password
      if store.any (fun u => u.email == email) then
        Except.error "Validation error: email must be unique"
      else
        let u : SUser := ⟨newId, name, email, hashed, role⟩
        Except.ok (u, store ++ [u])

/-- POST /api/users (SQL variant, src/server.js:137).  Note: no emptiness
check on the body in this variant; the create call always reaches the
store layer. -/
def postUsers (salt : String) (newId : Nat) (store : List SUser)
    (body : Option (List (String × Json))) : HResult (List SUser) :=
  match createUser salt newId store (body.getD []) with
  | Except.error e => ⟨⟨400, msgObj e⟩, store, 1⟩
  | Except.ok (u, store') =>
      ⟨⟨201, Json.obj [("id", Json.num u.id), ("name", Json.str u.name),
        ("email", Json.str u.email), ("role", Json.str u.role)]⟩, store', 1⟩

/-- Full serialization of a user row. -/
def serializeUser (u : SUser) : List (String × Json) :=
  [("id", Json.num u.id), ("name", Json.str u.name),
   ("email", Json.str u.email), ("password", Json.str u.password),
   ("role", Json.str u.role)]

/-- GET /api/users (SQL variant, src/server.js:136):
`findAll(attributes: exclude password)`. -/
def getUsers (store : List SUser) : HResult (List SUser) :=
  ⟨⟨200, Json.arr (store.map (fun u =>
      Json.obj (selectExclude ["password"] (serializeUser u))))⟩, store, 1⟩

/-- POST /api/login (SQL variant, src/server.js:121-135). -/
def postLogin (store : List SUser) (email password : String) : HttpResponse :=
  match store.find? (fun u => u.email == email) with
  | none => ⟨400, msgObj "Invalid credentials"⟩
  | some user =>
      if bcrypt.compare password user.password then
        ⟨200, Json.obj [("message", Json.str "Login successful"),
          ("user", Json.obj [("id", Json.num user.id),
            ("name", Json.str user.name), ("email", Json.str user.email),
            ("role", Json.str user.role)])]⟩
      else ⟨400, msgObj "Invalid credentials"⟩

/-- Model of `Product.create(req.body)` with defaults stock = 0 and
status = "Active" and the isIn validator on status. -/
def createProduct (newId : Nat) (store : List SProduct)
    (body : List (String × Json)) : Except String (SProduct × List SProduct) := do
  let name ← requireField (bodyStr body "name")
    "notNull Violation: Product.name cannot be null"
  let description := bodyStr body "description"
  let price ← requireField (bodyNum body "price")
    "notNull Violation: Product.price cannot be null"
  let stock := (bodyNum body "stock").getD 0
  let status := (bodyStr body "status").getD "Active"
  if !(status == "Active" || status == "Archived" || status == "Out of Stock") then
    Except.error "Validation error: Validation isIn on status failed"
  else
    let images := match body.lookup "images" with
      | some j => parseStrList j
      | none => none
    let p : SProduct := ⟨newId, name, description, price, stock, status, images⟩
    Except.ok (p, store ++ [p])

def serializeProduct (p : SProduct) : List (String × Json) :=
  [("id", Json.num p.id), ("name", Json.str p.name)]
  ++ (match p.description with
      | some d => [("description", Json.str d)] | none => [])
  ++ [("price", Json.num p.price), ("stock", Json.num p.stock),
      ("status", Json.str p.status)]
  ++ (match p.images with
      | some l => [("images", Json.arr (l.map Json.str))] | none => [])

/-- POST /api/products (SQL variant, src/server.js:116).  No emptiness
check: `Product.create` is called on whatever body arrived. -/
def postProducts (newId : Nat) (store : List SProduct)
    (body : Option (List (String × Json))) : HResult (List SProduct) :=
  match createProduct newId store (body.getD []) with
  | Except.error e => ⟨⟨400, msgObj e⟩, store, 1⟩
  | Except.ok (p, store') =>
      ⟨⟨201, Json.obj (serializeProduct p)⟩, store', 1⟩

/-- GET /api/products (SQL variant, src/server.js:115).  The `include:
Category` join adds an association object no claim touches; the row fields
are serialized as stored. -/
def getProducts (store : List SProduct) : HResult (List SProduct) :=
  ⟨⟨200, Json.arr (store.map (fun p => Json.obj (serializeProduct p)))⟩,
   store, 1⟩

/-- The validators Sequelize runs on the values of an `update` call:
only the isIn check on a supplied status can fail here. -/
def productUpdateValid (body : List (String × Json)) : Bool :=
  match bodyStr body "status" with
  | some s => s == "Active" || s == "Archived" || s == "Out of Stock"
  | none => true

def applyProductUpdate (body : List (String × Json)) (p : SProduct) :
    SProduct :=
  { p with
    name := (bodyStr body "name").getD p.name,
    description := match bodyStr body "description" with
      | some d => some d | none => p.description,
    price := (bodyNum body "price").getD p.price,
    stock := (bodyNum body "stock").getD p.stock,
    status := (bodyStr body "status").getD p.status,
    images := match body.lookup "images" with
      | some j => parseStrList j | none => p.images }

/-- PUT /api/products/:id (SQL variant, src/server.js:117).  No emptiness
check; `Product.update(req.body, where id)` is called unconditionally and
the handler then answers 200 "Product updated" whatever the match count
was — an empty body therefore yields 200, not 400. -/
def putProducts (store : List SProduct) (id : Nat)
    (body : Option (List (String × Json))) : HResult (List SProduct) :=
  let b := body.getD []
  if productUpdateValid b then
    ⟨⟨200, msgObj "Product updated"⟩,
     store.map (fun p => if p.id == id then applyProductUpdate b p else p), 1⟩
  else
    ⟨⟨400, msgObj "Validation error: Validation isIn on status failed"⟩,
     store, 1⟩

/-- DELETE /api/products/:id (SQL variant, src/server.js:118):
`Product.destroy(where id)` then an unconditional success message. -/
def deleteProducts (store : List SProduct) (id : Nat) :
    HResult (List SProduct) :=
  ⟨⟨200, msgObj "Product deleted"⟩, store.filter (fun p => p.id != id), 1⟩

end sql

namespace healthzVariant

/-- Modelled from the spec: the repository has four near-duplicate server
variants and only two are under src/server.js; per the spec (§6, §7), exactly
one of the missing variants exposes `GET /healthz` answering 200 "OK"
independent of store connectivity, and keeps the HTTP listener alive even if
the initial store handshake fails.  The store connectivity state observed at
request time is the only input. -/
inductive StoreConnectivity where
  | connected : StoreConnectivity
  | handshakeFailed : StoreConnectivity
deriving Repr, DecidableEq

/-- Modelled from the spec: the `GET /healthz` handler of that variant. -/
def getHealthz (_c : StoreConnectivity) : HttpResponse :=
  ⟨200, Json.str "OK"⟩

/-- Modelled from the spec: whether the listener is accepting requests given
the outcome of the initial store handshake (it intentionally stays alive on
failure, so a liveness probe can still succeed). -/
def listenerAlive (_c : StoreConnectivity) : Bool := true

end healthzVariant

/-- A concrete stored user of the mongo variant, as persisted by a create
with plaintext password "pw" and salt "ab" (used to instantiate theorems at
concrete inputs). -/
def annUser : mongo.MUser :=
  ⟨1, "Ann", "ann@example.com", bcrypt.hashWithSalt 10 "ab" "pw", "Editor"⟩

/-- The same concrete stored user for the SQL variant. -/
def annUserSql : sql.SUser :=
  ⟨1, "Ann", "ann@example.com", bcrypt.hashWithSalt 10 "ab" "pw", "Editor"⟩

/-!
## Theorems

General lemmas shared by several claims, followed by one theorem per claim
(with a witness where the theorem carries hypotheses).
-/

theorem bcrypt.scrambleChars_length (l : List Char) :
    (bcrypt.scrambleChars l).length = l.length := by
  induction l with
  | nil => rfl
  | cons c cs ih => simp [bcrypt.scrambleChars, ih]

/-- A digest is strictly longer than the plaintext it hashes, so the stored
password can never coincide with the supplied plaintext. -/
theorem bcrypt.hashWithSalt_ne_plaintext (cost : Nat) (salt plaintext : String) :
    bcrypt.hashWithSalt cost salt plaintext ≠ plaintext := by
  intro h
  have hlen : (bcrypt.hashWithSalt cost salt plaintext).length
      = plaintext.length := congrArg String.length h
  have hmk : (String.mk (bcrypt.scrambleChars (salt.data ++ plaintext.data))).length
      = salt.length + plaintext.length := by
    show (bcrypt.scrambleChars (salt.data ++ plaintext.data)).length
        = salt.length + plaintext.length
    rw [bcrypt.scrambleChars_length, List.length_append]
    rfl
  rw [bcrypt.hashWithSalt] at hlen
  simp only [String.length_append, hmk] at hlen
  have h4 : "$2a$".length = 4 := rfl
  have h1 : "$".length = 1 := rfl
  rw [h4, h1] at hlen
  omega

/-- A key on the exclusion list never appears among the keys of the
projected record. -/
theorem selectExclude_key_not_mem (keys : List String)
    (fields : List (String × Json)) (k : String) (hk : k ∈ keys) :
    k ∉ (Json.obj (selectExclude keys fields)).objKeys := by
  intro hmem
  simp only [Json.objKeys, selectExclude, List.mem_map, List.mem_filter] at hmem
  obtain ⟨kv, ⟨_, hpred⟩, hfst⟩ := hmem
  rw [hfst] at hpred
  simp at hpred
  exact hpred hk

theorem bodyStr_of_lookup_none (body : List (String × Json)) (k : String)
    (h : body.lookup k = none) : bodyStr body k = none := by
  unfold bodyStr
  rw [h]

theorem bodyNum_of_lookup_none (body : List (String × Json)) (k : String)
    (h : body.lookup k = none) : bodyNum body k = none := by
  unfold bodyNum
  rw [h]

/-- C6: the variant documented in the spec (not among the two under src)
exposes GET /healthz answering HTTP 200 with body "OK" whatever the store
connectivity is, and its listener stays alive even when the initial store
handshake failed. -/
theorem C6_healthz_ok_independent_of_store (c : healthzVariant.StoreConnectivity) :
    healthzVariant.getHealthz c = ⟨200, Json.str "OK"⟩ ∧
    healthzVariant.listenerAlive c = true :=
  ⟨rfl, rfl⟩

/-- C8: every DELETE handler of both variants answers the same success
acknowledgement for every store and every id — whether or not a record with
that identity exists, never a 404, with no existence check before the
delete. -/
theorem C8_delete_always_acknowledges_success :
    (∀ (store : List mongo.MProduct) (id : Nat),
      (mongo.deleteProducts store id).resp = ⟨200, msgObj "Deleted successfully."⟩) ∧
    (∀ (store : List mongo.MCategory) (id : Nat),
      (mongo.deleteCategories store id).resp = ⟨200, msgObj "Deleted successfully."⟩) ∧
    (∀ (store : List mongo.MUser) (id : Nat),
      (mongo.deleteUsers store id).resp = ⟨200, msgObj "Deleted successfully."⟩) ∧
    (∀ (store : List sql.SProduct) (id : Nat),
      (sql.deleteProducts store id).resp = ⟨200, msgObj "Product deleted"⟩) :=
  ⟨fun _ _ => rfl, fun _ _ => rfl, fun _ _ => rfl, fun _ _ => rfl⟩

/-- C10: in the mongo variant, a PUT with a non-empty body whose id matches
no stored record answers HTTP 200 with a `null` body (neither a record, an
acknowledgement, nor an error), for each of the four entity kinds. -/
theorem C10_put_unknown_id_returns_200_null
    (body : List (String × Json)) (hbody : body ≠ []) :
    (∀ (store : List mongo.MProduct) (id : Nat),
      (∀ p ∈ store, p._id ≠ id) →
      mongo.putProducts store id (some body) = ⟨⟨200, Json.null⟩, store, 1⟩) ∧
    (∀ (store : List mongo.MCategory) (id : Nat),
      (∀ c ∈ store, c._id ≠ id) →
      mongo.putCategories store id (some body) = ⟨⟨200, Json.null⟩, store, 1⟩) ∧
    (∀ (store : List mongo.MOrder) (id : Nat),
      (∀ o ∈ store, o._id ≠ id) →
      mongo.putOrders store id (some body) = ⟨⟨200, Json.null⟩, store, 1⟩) ∧
    (∀ (store : List mongo.MUser) (id : Nat),
      (∀ u ∈ store, u._id ≠ id) →
      mongo.putUsers store id (some body) = ⟨⟨200, Json.null⟩, store, 1⟩) := by
  have hne : reqBodyEmpty (some body) = false := by
    cases body with
    | nil => exact absurd rfl hbody
    | cons a l => rfl
  refine ⟨fun store id h => ?_, fun store id h => ?_,
    fun store id h => ?_, fun store id h => ?_⟩ <;>
  · have hfind : store.find? (fun x => x._id == id) = none :=
      List.find?_eq_none.mpr (fun x hx => by simpa using h x hx)
    simp only [mongo.putProducts, mongo.putCategories, mongo.putOrders,
      mongo.putUsers, hne, Bool.false_eq_true, if_false, hfind]

/-- Witness for C10 at a concrete input. -/
theorem C10_put_unknown_id_returns_200_null_witness :
    mongo.putProducts [] 7 (some [("name", Json.str "X")]) =
      ⟨⟨200, Json.null⟩, [], 1⟩ ∧
    mongo.putUsers [⟨1, "Ann", "ann@example.com", "h", "Editor"⟩] 7
        (some [("name", Json.str "X")]) =
      ⟨⟨200, Json.null⟩, [⟨1, "Ann", "ann@example.com", "h", "Editor"⟩], 1⟩ := by
  have h := C10_put_unknown_id_returns_200_null [("name", Json.str "X")]
    (by simp)
  exact ⟨h.1 [] 7 (by simp),
    h.2.2.2 [⟨1, "Ann", "ann@example.com", "h", "Editor"⟩] 7 (by decide)⟩

/-- C2: in both variants, a login whose email matches no stored user and a
login whose email matches a user but whose password fails the bcrypt
comparison produce exactly the same HTTP 400 response
`message: Invalid credentials`; the response never distinguishes
email-existence from password-mismatch. -/
theorem C2_login_does_not_leak_email_existence :
    (∀ (store : List mongo.MUser) (email password : String),
      (store.find? (fun u => u.email == email) = none →
        mongo.postLogin store email password =
          ⟨400, msgObj "Invalid credentials"⟩) ∧
      (∀ u, store.find? (fun v => v.email == email) = some u →
        bcrypt.compare password u.password = false →
        mongo.postLogin store email password =
          ⟨400, msgObj "Invalid credentials"⟩)) ∧
    (∀ (store : List sql.SUser) (email password : String),
      (store.find? (fun u => u.email == email) = none →
        sql.postLogin store email password =
          ⟨400, msgObj "Invalid credentials"⟩) ∧
      (∀ u, store.find? (fun v => v.email == email) = some u →
        bcrypt.compare password u.password = false →
        sql.postLogin store email password =
          ⟨400, msgObj "Invalid credentials"⟩)) := by
  constructor
  · intro store email password
    refine ⟨fun h => ?_, fun u hu hcmp => ?_⟩
    · simp [mongo.postLogin, h]
    · simp [mongo.postLogin, hu, hcmp]
  · intro store email password
    refine ⟨fun h => ?_, fun u hu hcmp => ?_⟩
    · simp [sql.postLogin, h]
    · simp [sql.postLogin, hu, hcmp]

/-- Witness for C2: a store holding one user; an unknown email and a known
email with a wrong password both get the same 400 body, in both variants. -/
theorem C2_login_does_not_leak_email_existence_witness :
    mongo.postLogin [annUser] "zoe@example.com" "pw" =
      ⟨400, msgObj "Invalid credentials"⟩ ∧
    mongo.postLogin [annUser] "ann@example.com" "wrong" =
      ⟨400, msgObj "Invalid credentials"⟩ ∧
    sql.postLogin [annUserSql] "zoe@example.com" "pw" =
      ⟨400, msgObj "Invalid credentials"⟩ ∧
    sql.postLogin [annUserSql] "ann@example.com" "wrong" =
      ⟨400, msgObj "Invalid credentials"⟩ := by
  have h := C2_login_does_not_leak_email_existence
  exact ⟨(h.1 [annUser] "zoe@example.com" "pw").1 (by decide),
    (h.1 [annUser] "ann@example.com" "wrong").2 annUser (by decide) (by decide),
    (h.2 [annUserSql] "zoe@example.com" "pw").1 (by decide),
    (h.2 [annUserSql] "ann@example.com" "wrong").2 annUserSql (by decide)
      (by decide)⟩

/-- C3: user-returning success responses carry no password field: the
GET /api/users list of both variants projects every record without the
password key, and a successful login answers exactly the
identity/name/email/role projection of the matched user. -/
theorem C3_user_responses_never_contain_password :
    (∀ (store : List mongo.MUser),
      (mongo.getUsers store).resp.status = 200 ∧
      ∀ j ∈ ((mongo.getUsers store).resp.body).arrElems,
        "password" ∉ j.objKeys) ∧
    (∀ (store : List sql.SUser),
      (sql.getUsers store).resp.status = 200 ∧
      ∀ j ∈ ((sql.getUsers store).resp.body).arrElems,
        "password" ∉ j.objKeys) ∧
    (∀ (store : List mongo.MUser) (email password : String) (u : mongo.MUser),
      store.find? (fun v => v.email == email) = some u →
      bcrypt.compare password u.password = true →
      mongo.postLogin store email password =
        ⟨200, Json.obj [("message", Json.str "Login successful"),
          ("user", Json.obj [("_id", Json.num u._id), ("name", Json.str u.name),
            ("email", Json.str u.email), ("role", Json.str u.role)])]⟩) ∧
    (∀ (store : List sql.SUser) (email password : String) (u : sql.SUser),
      store.find? (fun v => v.email == email) = some u →
      bcrypt.compare password u.password = true →
      sql.postLogin store email password =
        ⟨200, Json.obj [("message", Json.str "Login successful"),
          ("user", Json.obj [("id", Json.num u.id), ("name", Json.str u.name),
            ("email", Json.str u.email), ("role", Json.str u.role)])]⟩) := by
  refine ⟨fun store => ⟨rfl, ?_⟩, fun store => ⟨rfl, ?_⟩,
    fun store email password u hu hcmp => ?_,
    fun store email password u hu hcmp => ?_⟩
  · intro j hj
    simp only [mongo.getUsers, Json.arrElems, List.mem_map] at hj
    obtain ⟨v, _, rfl⟩ := hj
    exact selectExclude_key_not_mem ["password"] (mongo.serializeUser v)
      "password" (by simp)
  · intro j hj
    simp only [sql.getUsers, Json.arrElems, List.mem_map] at hj
    obtain ⟨v, _, rfl⟩ := hj
    exact selectExclude_key_not_mem ["password"] (sql.serializeUser v)
      "password" (by simp)
  · simp [mongo.postLogin, hu, hcmp]
  · simp [sql.postLogin, hu, hcmp]

/-- Witness for C3: concrete one-user stores; the list projection carries no
password key, and the concrete successful logins return exactly the
four-field projection in both variants. -/
theorem C3_user_responses_never_contain_password_witness :
    ("password" ∉
      (Json.obj (selectExclude ["password"] (mongo.serializeUser annUser))).objKeys) ∧
    mongo.postLogin [annUser] "ann@example.com" "pw" =
      ⟨200, Json.obj [("message", Json.str "Login successful"),
        ("user", Json.obj [("_id", Json.num annUser._id),
          ("name", Json.str annUser.name), ("email", Json.str annUser.email),
          ("role", Json.str annUser.role)])]⟩ ∧
    sql.postLogin [annUserSql] "ann@example.com" "pw" =
      ⟨200, Json.obj [("message", Json.str "Login successful"),
        ("user", Json.obj [("id", Json.num annUserSql.id),
          ("name", Json.str annUserSql.name), ("email", Json.str annUserSql.email),
          ("role", Json.str annUserSql.role)])]⟩ := by
  have h := C3_user_responses_never_contain_password
  refine ⟨?_, h.2.2.1 [annUser] "ann@example.com" "pw" annUser (by decide) (by decide),
    h.2.2.2 [annUserSql] "ann@example.com" "pw" annUserSql (by decide) (by decide)⟩
  exact (h.1 [annUser]).2
    (Json.obj (selectExclude ["password"] (mongo.serializeUser annUser)))
    (List.mem_singleton.mpr rfl)

/-- Counterexample to C4 as stated: in the SQL variant, PUT /api/products/:id
with an empty body performs no emptiness check — the store update is invoked
(one store operation) and the handler answers 200 "Product updated", not
400. -/
theorem C4_counterexample_sql_put_empty_body_returns_200 :
    (sql.putProducts ([] : List sql.SProduct) 1 (some [])).resp.status = 200 ∧
    (sql.putProducts ([] : List sql.SProduct) 1 (some [])).resp.status ≠ 400 ∧
    (sql.putProducts ([] : List sql.SProduct) 1 (some [])).storeOps = 1 := by
  refine ⟨rfl, ?_, rfl⟩
  decide

/-- C4 amended: only the mongo variant rejects an absent or empty body with
400 before touching the store (all eight of its POST/PUT handlers).  The SQL
variant has no emptiness check: its PUT reaches the store and answers 200,
and its POST create calls reach the store and answer 400 only through the
store-level validation failure. -/
theorem C4_amended_empty_body_handling
    (body : Option (List (String × Json)))
    (hempty : reqBodyEmpty body = true) :
    (∀ (newId : Nat) (now : Int) (store : List mongo.MProduct),
      mongo.postProducts newId now store body =
        ⟨⟨400, msgObj "Payload not set or empty."⟩, store, 0⟩) ∧
    (∀ (store : List mongo.MProduct) (id : Nat),
      mongo.putProducts store id body =
        ⟨⟨400, msgObj "Payload not set or empty."⟩, store, 0⟩) ∧
    (∀ (newId : Nat) (store : List mongo.MCategory),
      mongo.postCategories newId store body =
        ⟨⟨400, msgObj "Payload not set or empty."⟩, store, 0⟩) ∧
    (∀ (store : List mongo.MCategory) (id : Nat),
      mongo.putCategories store id body =
        ⟨⟨400, msgObj "Payload not set or empty."⟩, store, 0⟩) ∧
    (∀ (newId : Nat) (now : Int) (store : List mongo.MOrder),
      mongo.postOrders newId now store body =
        ⟨⟨400, msgObj "Payload not set or empty."⟩, store, 0⟩) ∧
    (∀ (store : List mongo.MOrder) (id : Nat),
      mongo.putOrders store id body =
        ⟨⟨400, msgObj "Payload not set or empty."⟩, store, 0⟩) ∧
    (∀ (salt : String) (newId : Nat) (store : List mongo.MUser),
      mongo.postUsers salt newId store body =
        ⟨⟨400, msgObj "Payload not set or empty."⟩, store, 0⟩) ∧
    (∀ (store : List mongo.MUser) (id : Nat),
      mongo.putUsers store id body =
        ⟨⟨400, msgObj "Payload not set or empty."⟩, store, 0⟩) ∧
    (∀ (store : List sql.SProduct) (id : Nat),
      (sql.putProducts store id body).resp.status = 200 ∧
      (sql.putProducts store id body).storeOps = 1) ∧
    (∀ (newId : Nat) (store : List sql.SProduct),
      (sql.postProducts newId store body).resp.status = 400 ∧
      (sql.postProducts newId store body).storeOps = 1) ∧
    (∀ (salt : String) (newId : Nat) (store : List sql.SUser),
      (sql.postUsers salt newId store body).resp.status = 400 ∧
      (sql.postUsers salt newId store body).storeOps = 1) := by
  have hb : body.getD [] = [] := by
    cases body with
    | none => rfl
    | some l =>
        cases l with
        | nil => rfl
        | cons a t => simp [reqBodyEmpty] at hempty
  refine ⟨fun newId now store => by simp [mongo.postProducts, hempty],
    fun store id => by simp [mongo.putProducts, hempty],
    fun newId store => by simp [mongo.postCategories, hempty],
    fun store id => by simp [mongo.putCategories, hempty],
    fun newId now store => by simp [mongo.postOrders, hempty],
    fun store id => by simp [mongo.putOrders, hempty],
    fun salt newId store => by simp [mongo.postUsers, hempty],
    fun store id => by simp [mongo.putUsers, hempty],
    fun store id => ?_, fun newId store => ?_, fun salt newId store => ?_⟩
  · rw [sql.putProducts, hb]
    exact ⟨rfl, rfl⟩
  · rw [sql.postProducts, hb]
    exact ⟨rfl, rfl⟩
  · rw [sql.postUsers, hb]
    exact ⟨rfl, rfl⟩

/-- Witness for C4's amended theorem at the absent body. -/
theorem C4_amended_empty_body_handling_witness :
    mongo.postProducts 1 0 [] none =
      ⟨⟨400, msgObj "Payload not set or empty."⟩, [], 0⟩ ∧
    mongo.putUsers [] 3 none =
      ⟨⟨400, msgObj "Payload not set or empty."⟩, [], 0⟩ ∧
    (sql.putProducts ([] : List sql.SProduct) 1 none).resp.status = 200 ∧
    (sql.postUsers "ab" 1 [] none).resp.status = 400 := by
  have h := C4_amended_empty_body_handling none rfl
  exact ⟨h.1 1 0 [], (h.2.2.2.2.2.2.2.1) [] 3,
    ((h.2.2.2.2.2.2.2.2.1) [] 1).1, ((h.2.2.2.2.2.2.2.2.2.2) "ab" 1 []).1⟩

/-- C7: a POST /api/categories whose name duplicates a stored category's
name answers 400 and leaves the stored categories unchanged. -/
theorem C7_duplicate_category_create_rejected_store_unchanged
    (newId : Nat) (store : List mongo.MCategory) (body : List (String × Json))
    (name : String) (hname : bodyStr body "name" = some name)
    (hdup : ∃ c ∈ store, c.name = name) :
    (mongo.postCategories newId store (some body)).resp.status = 400 ∧
    (mongo.postCategories newId store (some body)).store = store := by
  have hne : body ≠ [] := by
    intro h
    rw [h] at hname
    cases hname
  have hempty : reqBodyEmpty (some body) = false := by
    cases body with
    | nil => exact absurd rfl hne
    | cons a t => rfl
  have hany : store.any (fun c => c.name == name) = true := by
    obtain ⟨c, hc, hcn⟩ := hdup
    exact List.any_eq_true.mpr ⟨c, hc, by simp [hcn]⟩
  have hsave : mongo.saveNewCategory newId store body =
      Except.error "E11000 duplicate key error collection: categories index: name" := by
    unfold mongo.saveNewCategory
    rw [hname]
    simp only [requireField, Bind.bind, Except.bind]
    split
    · rfl
    next hcond => exact absurd hany hcond
  simp [mongo.postCategories, hempty, hsave]

/-- Witness for C7: creating "Shoes" over a store already holding "Shoes". -/
theorem C7_duplicate_category_create_rejected_store_unchanged_witness :
    (mongo.postCategories 2 [⟨1, "Shoes"⟩]
        (some [("name", Json.str "Shoes")])).resp.status = 400 ∧
    (mongo.postCategories 2 [⟨1, "Shoes"⟩]
        (some [("name", Json.str "Shoes")])).store = [⟨1, "Shoes"⟩] :=
  C7_duplicate_category_create_rejected_store_unchanged 2 [⟨1, "Shoes"⟩]
    [("name", Json.str "Shoes")] "Shoes" rfl
    ⟨⟨1, "Shoes"⟩, List.mem_singleton.mpr rfl, rfl⟩

/-- C5: a PUT /api/users/:id can change only the name, email and role of the
targeted user: every user in the post-state corresponds to a pre-state user
with the same identity and the same stored password (untargeted users are
untouched), and the body name:"X" sets exactly the name of the target. -/
theorem C5_user_update_only_name_email_role
    (store : List mongo.MUser) (id : Nat) (body : List (String × Json)) :
    (∀ u' ∈ (mongo.putUsers store id (some body)).store,
      ∃ u ∈ store, u'._id = u._id ∧ u'.password = u.password ∧
        (u'._id ≠ id → u' = u)) ∧
    (∀ u ∈ store, u._id = id →
      { u with name := "X" } ∈
        (mongo.putUsers store id (some [("name", Json.str "X")])).store) := by
  constructor
  · intro u' hu'
    cases hbe : reqBodyEmpty (some body) with
    | true =>
        simp only [mongo.putUsers, hbe, if_true] at hu'
        exact ⟨u', hu', rfl, rfl, fun _ => rfl⟩
    | false =>
        simp only [mongo.putUsers, hbe, Bool.false_eq_true, if_false] at hu'
        cases hf : store.find? (fun u => u._id == id) with
        | none =>
            rw [hf] at hu'
            exact ⟨u', hu', rfl, rfl, fun _ => rfl⟩
        | some u0 =>
            rw [hf] at hu'
            simp only [List.mem_map] at hu'
            obtain ⟨v, hv, rfl⟩ := hu'
            cases hvid : (v._id == id) with
            | true =>
                have hvid' : v._id = id := by simpa using hvid
                refine ⟨v, hv, by simp [hvid, mongo.applyUserUpdate],
                  by simp [hvid, mongo.applyUserUpdate], fun hne => ?_⟩
                exact absurd (by simp [hvid, mongo.applyUserUpdate, hvid']) hne
            | false =>
                exact ⟨v, hv, by simp [hvid], by simp [hvid],
                  fun _ => by simp [hvid]⟩
  · intro u hu huid
    have hsome : ∃ u0, store.find? (fun v => v._id == id) = some u0 := by
      cases hf : store.find? (fun v => v._id == id) with
      | none =>
          have := List.find?_eq_none.mp hf u hu
          simp [huid] at this
      | some u0 => exact ⟨u0, rfl⟩
    obtain ⟨u0, hf⟩ := hsome
    have hne : reqBodyEmpty (some [("name", Json.str "X")]) = false := rfl
    simp only [mongo.putUsers, hne, Bool.false_eq_true, if_false, hf,
      List.mem_map]
    refine ⟨u, hu, ?_⟩
    have huid' : (u._id == id) = true := by simpa using huid
    simp only [huid', if_true, mongo.applyUserUpdate, bodyStr]
    exact rfl

/-- Witness for C5: updating the single stored user's name to "X". -/
theorem C5_user_update_only_name_email_role_witness :
    { annUser with name := "X" } ∈
      (mongo.putUsers [annUser] 1 (some [("name", Json.str "X")])).store :=
  (C5_user_update_only_name_email_role [annUser] 1 []).2 annUser
    (List.mem_singleton.mpr rfl) rfl

/-- Field trace of a validated mongo user document. -/
theorem mongo.buildUser_fields (body : List (String × Json)) (d : mongo.UserDoc)
    (h : mongo.buildUser body = Except.ok d) :
    bodyStr body "name" = some d.name ∧ bodyStr body "email" = some d.email ∧
    bodyStr body "password" = some d.password ∧
    d.role = (bodyStr body "role").getD "Editor" := by
  unfold mongo.buildUser at h
  cases h1 : bodyStr body "name" <;> rw [h1] at h <;>
    simp only [requireField, Bind.bind, Except.bind] at h
  · cases h
  cases h2 : bodyStr body "email" <;> rw [h2] at h <;>
    simp only [requireField] at h
  · cases h
  cases h3 : bodyStr body "password" <;> rw [h3] at h <;>
    simp only [requireField] at h
  · cases h
  split at h
  · cases h
    exact ⟨rfl, rfl, rfl, rfl⟩
  · cases h

/-- The persisted mongo user is the validated document with its password
replaced by the cost-10 bcrypt digest, appended to the collection. -/
theorem mongo.saveNewUser_spec (salt : String) (newId : Nat)
    (store : List mongo.MUser) (body : List (String × Json))
    (u : mongo.MUser) (store' : List mongo.MUser)
    (h : mongo.saveNewUser salt newId store body = Except.ok (u, store')) :
    ∃ d, mongo.buildUser body = Except.ok d ∧
      u = ⟨newId, d.name, d.email,
        bcrypt.hashWithSalt 10 salt d.password, d.role⟩ ∧
      store' = store ++ [u] := by
  unfold mongo.saveNewUser at h
  cases hb : mongo.buildUser body <;> rw [hb] at h <;>
    simp only [Bind.bind, Except.bind, mongo.hashUserDoc] at h
  · cases h
  next d =>
    split at h
    · cases h
    · cases h
      exact ⟨d, rfl, rfl, rfl⟩

/-- Field trace of a successful SQL-variant user create. -/
theorem sql.createUser_spec (salt : String) (newId : Nat)
    (store : List sql.SUser) (body : List (String × Json))
    (u : sql.SUser) (store' : List sql.SUser)
    (h : sql.createUser salt newId store body = Except.ok (u, store')) :
    ∃ pw, bodyStr body "password" = some pw ∧
      u.password = bcrypt.hashWithSalt 10 salt pw ∧
      u.id = newId ∧ u.role = (bodyStr body "role").getD "Editor" ∧
      store' = store ++ [u] := by
  unfold sql.createUser at h
  cases h1 : bodyStr body "name" <;> rw [h1] at h <;>
    simp only [requireField, Bind.bind, Except.bind] at h
  · cases h
  cases h2 : bodyStr body "email" <;> rw [h2] at h <;>
    simp only [requireField] at h
  · cases h
  cases h3 : bodyStr body "password" <;> rw [h3] at h <;>
    simp only [requireField] at h
  · cases h
  rename_i pw
  split at h
  · cases h
  split at h
  · cases h
  split at h
  · cases h
  cases h
  exact ⟨pw, rfl, rfl, rfl, rfl, rfl⟩

/-- Field trace of a validated mongo product document. -/
theorem mongo.buildProduct_spec (newId : Nat) (now : Int)
    (body : List (String × Json)) (p : mongo.MProduct)
    (h : mongo.buildProduct newId now body = Except.ok p) :
    p._id = newId ∧ p.stock = (bodyNum body "stock").getD 0 ∧
    p.status = (bodyStr body "status").getD "Active" := by
  unfold mongo.buildProduct at h
  cases h1 : bodyStr body "name" <;> rw [h1] at h <;>
    simp only [requireField, Bind.bind, Except.bind] at h
  · cases h
  cases h2 : bodyNum body "price" <;> rw [h2] at h <;>
    simp only [requireField] at h
  · cases h
  cases h3 : bodyStr body "category" <;> rw [h3] at h <;>
    simp only [requireField] at h
  · cases h
  split at h
  · cases h
    exact ⟨rfl, rfl, rfl⟩
  · cases h

/-- Field trace of a successful SQL-variant product create. -/
theorem sql.createProduct_spec (newId : Nat) (store : List sql.SProduct)
    (body : List (String × Json)) (p : sql.SProduct)
    (store' : List sql.SProduct)
    (h : sql.createProduct newId store body = Except.ok (p, store')) :
    p.id = newId ∧ p.stock = (bodyNum body "stock").getD 0 ∧
    p.status = (bodyStr body "status").getD "Active" ∧
    store' = store ++ [p] := by
  unfold sql.createProduct at h
  cases h1 : bodyStr body "name" <;> rw [h1] at h <;>
    simp only [requireField, Bind.bind, Except.bind] at h
  · cases h
  cases h2 : bodyNum body "price" <;> rw [h2] at h <;>
    simp only [requireField] at h
  · cases h
  split at h
  · cases h
  · cases h
    exact ⟨rfl, rfl, rfl, rfl⟩

/-- C1: in both variants, a user persisted by POST /api/users stores as its
password the cost-10 salted bcrypt digest of the supplied plaintext, which
is never equal to the plaintext itself. -/
theorem C1_created_user_password_is_salted_digest
    (salt : String) (newId : Nat) (body : List (String × Json)) (p : String)
    (hp : bodyStr body "password" = some p) :
    (∀ (store : List mongo.MUser) (u : mongo.MUser),
      u ∈ (mongo.postUsers salt newId store (some body)).store → u ∉ store →
      u.password = bcrypt.hashWithSalt 10 salt p ∧ u.password ≠ p) ∧
    (∀ (store : List sql.SUser) (u : sql.SUser),
      u ∈ (sql.postUsers salt newId store (some body)).store → u ∉ store →
      u.password = bcrypt.hashWithSalt 10 salt p ∧ u.password ≠ p) := by
  constructor
  · intro store u hu hnot
    cases hbe : reqBodyEmpty (some body) with
    | true =>
        simp only [mongo.postUsers, hbe, if_true] at hu
        exact absurd hu hnot
    | false =>
        simp only [mongo.postUsers, hbe, Bool.false_eq_true, if_false,
          Option.getD_some] at hu
        cases hs : mongo.saveNewUser salt newId store body with
        | error e =>
            rw [hs] at hu
            exact absurd hu hnot
        | ok pr =>
            obtain ⟨u0, st2⟩ := pr
            rw [hs] at hu
            have hu2 : u ∈ st2 := hu
            obtain ⟨d, hd, hu0def, hst⟩ :=
              mongo.saveNewUser_spec salt newId store body u0 st2 hs
            rw [hst] at hu2
            rcases List.mem_append.mp hu2 with hmem | hmem
            · exact absurd hmem hnot
            · have hue : u = u0 := List.mem_singleton.mp hmem
              have hdp : d.password = p := by
                have h4 := (mongo.buildUser_fields body d hd).2.2.1
                rw [hp] at h4
                exact (Option.some.inj h4).symm
              subst hue
              have hupw : u.password = bcrypt.hashWithSalt 10 salt p := by
                rw [hu0def, hdp]
              constructor
              · exact hupw
              · rw [hupw]
                exact bcrypt.hashWithSalt_ne_plaintext 10 salt p
  · intro store u hu hnot
    simp only [sql.postUsers, Option.getD_some] at hu
    cases hs : sql.createUser salt newId store body with
    | error e =>
        rw [hs] at hu
        exact absurd hu hnot
    | ok pr =>
        obtain ⟨u0, st2⟩ := pr
        rw [hs] at hu
        have hu2 : u ∈ st2 := hu
        obtain ⟨pw, hpw, hupw0, _, _, hst⟩ :=
          sql.createUser_spec salt newId store body u0 st2 hs
        rw [hst] at hu2
        rcases List.mem_append.mp hu2 with hmem | hmem
        · exact absurd hmem hnot
        · have hue : u = u0 := List.mem_singleton.mp hmem
          have hdp : pw = p := by
            rw [hp] at hpw
            exact (Option.some.inj hpw).symm
          subst hue
          rw [hdp] at hupw0
          constructor
          · exact hupw0
          · rw [hupw0]
            exact bcrypt.hashWithSalt_ne_plaintext 10 salt p

/-- Witness for C1: a concrete create; the persisted password is the salted
digest and differs from the plaintext "pw". -/
theorem C1_created_user_password_is_salted_digest_witness :
    annUser ∈ (mongo.postUsers "ab" 1 []
      (some [("name", Json.str "Ann"), ("email", Json.str "ann@example.com"),
             ("password", Json.str "pw")])).store ∧
    annUser.password = bcrypt.hashWithSalt 10 "ab" "pw" ∧
    annUser.password ≠ "pw" := by
  have hmem : annUser ∈ (mongo.postUsers "ab" 1 []
      (some [("name", Json.str "Ann"), ("email", Json.str "ann@example.com"),
             ("password", Json.str "pw")])).store := by decide
  have h := (C1_created_user_password_is_salted_digest "ab" 1
      [("name", Json.str "Ann"), ("email", Json.str "ann@example.com"),
       ("password", Json.str "pw")] "pw" rfl).1 [] annUser hmem (by decide)
  exact ⟨hmem, h.1, h.2⟩

/-- C9: a successful create assigns the server identity and fills defaults —
stock 0 and status "Active" for products, role "Editor" for users — in both
variants. -/
theorem C9_create_assigns_identity_and_defaults :
    (∀ (newId : Nat) (now : Int) (store : List mongo.MProduct)
       (body : List (String × Json)) (p : mongo.MProduct),
      (mongo.postProducts newId now store (some body)).store = store ++ [p] →
      p._id = newId ∧ (body.lookup "stock" = none → p.stock = 0) ∧
      (body.lookup "status" = none → p.status = "Active")) ∧
    (∀ (salt : String) (newId : Nat) (store : List mongo.MUser)
       (body : List (String × Json)) (u : mongo.MUser),
      (mongo.postUsers salt newId store (some body)).store = store ++ [u] →
      u._id = newId ∧ (body.lookup "role" = none → u.role = "Editor")) ∧
    (∀ (newId : Nat) (store : List sql.SProduct)
       (body : List (String × Json)) (p : sql.SProduct),
      (sql.postProducts newId store (some body)).store = store ++ [p] →
      p.id = newId ∧ (body.lookup "stock" = none → p.stock = 0) ∧
      (body.lookup "status" = none → p.status = "Active")) ∧
    (∀ (salt : String) (newId : Nat) (store : List sql.SUser)
       (body : List (String × Json)) (u : sql.SUser),
      (sql.postUsers salt newId store (some body)).store = store ++ [u] →
      u.id = newId ∧ (body.lookup "role" = none → u.role = "Editor")) := by
  refine ⟨fun newId now store body p hst => ?_,
    fun salt newId store body u hst => ?_,
    fun newId store body p hst => ?_,
    fun salt newId store body u hst => ?_⟩
  · cases hbe : reqBodyEmpty (some body) with
    | true =>
        simp only [mongo.postProducts, hbe, if_true] at hst
        simp at hst
    | false =>
        simp only [mongo.postProducts, hbe, Bool.false_eq_true, if_false,
          Option.getD_some] at hst
        cases hb2 : mongo.buildProduct newId now body with
        | error e =>
            rw [hb2] at hst
            simp at hst
        | ok p0 =>
            rw [hb2] at hst
            have hst2 : store ++ [p0] = store ++ [p] := hst
            have hpp : p0 = p := by
              have h1 := List.append_cancel_left hst2
              simpa using h1
            obtain ⟨hid, hstock, hstatus⟩ :=
              mongo.buildProduct_spec newId now body p0 hb2
            subst hpp
            refine ⟨hid, fun hnone => ?_, fun hnone => ?_⟩
            · rw [hstock, bodyNum_of_lookup_none body "stock" hnone]
              rfl
            · rw [hstatus, bodyStr_of_lookup_none body "status" hnone]
              rfl
  · cases hbe : reqBodyEmpty (some body) with
    | true =>
        simp only [mongo.postUsers, hbe, if_true] at hst
        simp at hst
    | false =>
        simp only [mongo.postUsers, hbe, Bool.false_eq_true, if_false,
          Option.getD_some] at hst
        cases hs : mongo.saveNewUser salt newId store body with
        | error e =>
            rw [hs] at hst
            simp at hst
        | ok pr =>
            obtain ⟨u0, st2⟩ := pr
            rw [hs] at hst
            have hst2 : st2 = store ++ [u] := hst
            obtain ⟨d, hd, hu0def, hstapp⟩ :=
              mongo.saveNewUser_spec salt newId store body u0 st2 hs
            rw [hstapp] at hst2
            have huu : u0 = u := by
              have h1 := List.append_cancel_left hst2
              simpa using h1
            subst huu
            have hrole := (mongo.buildUser_fields body d hd).2.2.2
            constructor
            · rw [hu0def]
            · intro hnone
              rw [hu0def]
              show d.role = "Editor"
              rw [hrole, bodyStr_of_lookup_none body "role" hnone]
              rfl
  · simp only [sql.postProducts, Option.getD_some] at hst
    cases hc : sql.createProduct newId store body with
    | error e =>
        rw [hc] at hst
        simp at hst
    | ok pr =>
        obtain ⟨p0, st2⟩ := pr
        rw [hc] at hst
        have hst2 : st2 = store ++ [p] := hst
        obtain ⟨hid, hstock, hstatus, hstapp⟩ :=
          sql.createProduct_spec newId store body p0 st2 hc
        rw [hstapp] at hst2
        have hpp : p0 = p := by
          have h1 := List.append_cancel_left hst2
          simpa using h1
        subst hpp
        refine ⟨hid, fun hnone => ?_, fun hnone => ?_⟩
        · rw [hstock, bodyNum_of_lookup_none body "stock" hnone]
          rfl
        · rw [hstatus, bodyStr_of_lookup_none body "status" hnone]
          rfl
  · simp only [sql.postUsers, Option.getD_some] at hst
    cases hc : sql.createUser salt newId store body with
    | error e =>
        rw [hc] at hst
        simp at hst
    | ok pr =>
        obtain ⟨u0, st2⟩ := pr
        rw [hc] at hst
        have hst2 : st2 = store ++ [u] := hst
        obtain ⟨pw, hpw, hupw, hid, hrole, hstapp⟩ :=
          sql.createUser_spec salt newId store body u0 st2 hc
        rw [hstapp] at hst2
        have huu : u0 = u := by
          have h1 := List.append_cancel_left hst2
          simpa using h1
        subst huu
        refine ⟨hid, fun hnone => ?_⟩
        rw [hrole, bodyStr_of_lookup_none body "role" hnone]
        rfl

/-- Witness for C9: a product created without stock or status fields gets
stock 0, status "Active" and the assigned identity. -/
theorem C9_create_assigns_identity_and_defaults_witness :
    (mongo.postProducts 5 99 []
       (some [("name", Json.str "Boot"), ("price", Json.num 50),
              ("category", Json.str "Shoes")])).store =
      [] ++ [⟨5, "Boot", none, 50, "Shoes", 0, "Active", [], 99⟩] ∧
    (⟨5, "Boot", none, 50, "Shoes", 0, "Active", [], 99⟩ : mongo.MProduct).stock = 0 ∧
    (⟨5, "Boot", none, 50, "Shoes", 0, "Active", [], 99⟩ : mongo.MProduct).status = "Active" ∧
    (⟨5, "Boot", none, 50, "Shoes", 0, "Active", [], 99⟩ : mongo.MProduct)._id = 5 := by
  have h := C9_create_assigns_identity_and_defaults.1 5 99 []
    [("name", Json.str "Boot"), ("price", Json.num 50),
     ("category", Json.str "Shoes")]
    ⟨5, "Boot", none, 50, "Shoes", 0, "Active", [], 99⟩ rfl
  exact ⟨rfl, h.2.1 rfl, h.2.2 rfl, h.1⟩
